import Mathlib

/-!
Shallow embedding of the `ecommerce-analytics-pipeline` repository
(`data_generator.py`, `src/etl_pipeline.py`, `src/sql_analysis.py`).

Conventions of the embedding:
* Python floats are modelled as exact rationals (`Rat`); `round(x, 2)` is
  modelled by `round2` below.
* The numpy pseudo-random source is modelled as an abstract stream of
  rationals together with a cursor (`RandState`).  Each numpy primitive
  consumes draws from the stream and clamps them into the range the
  primitive guarantees (`np.random.randint(lo, hi)` yields an integer in
  `[lo, hi)`, `np.random.uniform(lo, hi)` a value in `[lo, hi)`,
  `np.random.choice xs` an element of `xs`).  Properties of the generator
  are stated universally over all streams, so they cover every run of the
  seeded generator.
* Python exceptions are modelled by `Option`/`Except` results.
-/

namespace ECommerce

/-- Embedding of `round(x, 2)`: round to two decimal places. -/
def round2 (x : Rat) : Rat := (round (x * 100) : Int) / 100

/-- The pseudo-random source: an infinite stream of rationals and a cursor. -/
structure RandState where
  stream : Nat → Rat
  idx : Nat

/-- Pull one raw draw from the stream. -/
def RandState.next (s : RandState) : Rat × RandState :=
  (s.stream s.idx, { s with idx := s.idx + 1 })

/-- Clamp a raw rational draw to a natural number (used to index ranges). -/
def toIndex (x : Rat) : Nat := (Int.floor x).natAbs

/-- Embedding of `np.random.randint(lo, hi)`: an integer in `[lo, hi)` (requires `lo < hi`). -/
def randint (lo hi : Int) (s : RandState) : Int × RandState :=
  (lo + (toIndex s.next.1 : Int) % (hi - lo), s.next.2)

/-- Remainder into the half-open interval `[0, m)` for `m > 0`. -/
def qmod (x m : Rat) : Rat := x - m * (Int.floor (x / m) : Int)

/-- Embedding of `np.random.uniform(lo, hi)`: a value in `[lo, hi)` (requires `lo < hi`). -/
def uniform (lo hi : Rat) (s : RandState) : Rat × RandState :=
  (lo + qmod s.next.1 (hi - lo), s.next.2)

/-- Embedding of `np.random.choice(xs)` on a possibly-empty list: `none` models the
`ValueError` numpy raises when `xs` is empty. -/
def choice {α : Type} (xs : List α) (s : RandState) : Option α × RandState :=
  (xs[toIndex s.next.1 % xs.length]?, s.next.2)

/-- Embedding of `np.random.choice(xs, p=…)` on a literal nonempty list: the probability
weights only change the distribution, never the support, so they are not
modelled.  `d` is a default that is never hit when `xs ≠ []`. -/
def choiceD {α : Type} (xs : List α) (d : α) (s : RandState) : α × RandState :=
  (xs.getD (toIndex s.next.1 % xs.length) d, s.next.2)

/-- Embedding of `np.random.choice(xs, k, replace=False)`: sample `k` elements without
replacement; `none` models the `ValueError` raised when `k` exceeds the
population size. -/
def sampleNoReplace {α : Type} (xs : List α) : Nat → RandState → Option (List α) × RandState
  | 0, s => (some [], s)
  | k + 1, s =>
    if h : xs.length = 0 then (none, s)
    else
      match sampleNoReplace (xs.eraseIdx (toIndex s.next.1 % xs.length)) k s.next.2 with
      | (some sel, s2) =>
        (some (xs.get ⟨toIndex s.next.1 % xs.length,
          Nat.mod_lt _ (Nat.pos_of_ne_zero h)⟩ :: sel), s2)
      | (none, s2) => (none, s2)

/-! ### Data model (`data_generator.py`) -/

/-- A row of the generated customers table. -/
structure Customer where
  customer_id : Int
  name : String
  email : String
  signup_date : Int
  location : String
  age : Int
  customer_segment : String
deriving DecidableEq, Repr

/-- A row of the generated products table. -/
structure Product where
  product_id : Int
  name : String
  category : String
  price : Rat
  cost : Rat
  stock_quantity : Int
deriving DecidableEq, Repr

/-- A row of the generated orders table. -/
structure Order where
  order_id : Int
  customer_id : Int
  order_date : Int
  total_amount : Rat
  status : String
deriving DecidableEq, Repr

/-- One line item of an order: the product, its drawn quantity and its
catalog price.  `generate_orders` only accumulates `price * quantity` into
the total; the embedding keeps the items so the total can be audited. -/
structure LineItem where
  product_id : Int
  quantity : Int
  price : Rat
deriving DecidableEq, Repr

def customerLocations : List String := ["London", "Manchester", "Birmingham", "Edinburgh"]

def customerSegments : List String := ["Premium", "Standard", "Basic"]

/-- Embedding of `generate_customers`: one customer row (`customer_id = i`). -/
def genCustomer (i : Nat) (s : RandState) : Customer × RandState :=
  let c1 := choiceD customerLocations "London" s
  let c2 := randint 18 70 c1.2
  let c3 := choiceD customerSegments "Premium" c2.2
  ({ customer_id := (i : Int), name := "Customer_" ++ toString i,
     email := "user" ++ toString i ++ "@email.com",
     signup_date := (i : Int) - 1, location := c1.1, age := c2.1,
     customer_segment := c3.1 }, c3.2)

/-- Embedding of `generate_customers(n)`: rows for `i = 1 .. n`. -/
def generateCustomersFrom (i : Nat) : Nat → RandState → List Customer × RandState
  | 0, s => ([], s)
  | k + 1, s =>
    ((genCustomer i s).1 :: (generateCustomersFrom (i + 1) k (genCustomer i s).2).1,
     (generateCustomersFrom (i + 1) k (genCustomer i s).2).2)

def generateCustomers (n : Nat) (s : RandState) : List Customer × RandState :=
  generateCustomersFrom 1 n s

def productCategories : List String := ["Electronics", "Clothing", "Books", "Home", "Sports"]

/-- Embedding of `generate_products`: one product row.  `base_price = uniform(10, 500)`;
the stored price is `round(base_price, 2)` while the cost is
`round(base_price * 0.6, 2)` — the cost is computed from the *unrounded*
base price, not from the stored price. -/
def genProduct (i : Nat) (s : RandState) : Product × RandState :=
  let c1 := choiceD productCategories "Electronics" s
  let c2 := uniform 10 500 c1.2
  let c3 := randint 0 100 c2.2
  ({ product_id := (i : Int), name := c1.1 ++ "_Product_" ++ toString i,
     category := c1.1, price := round2 c2.1, cost := round2 (c2.1 * (3 / 5)),
     stock_quantity := c3.1 }, c3.2)

def generateProductsFrom (i : Nat) : Nat → RandState → List Product × RandState
  | 0, s => ([], s)
  | k + 1, s =>
    ((genProduct i s).1 :: (generateProductsFrom (i + 1) k (genProduct i s).2).1,
     (generateProductsFrom (i + 1) k (genProduct i s).2).2)

/-- Embedding of `generate_products(n)`: rows for `i = 1 .. n`. -/
def generateProducts (n : Nat) (s : RandState) : List Product × RandState :=
  generateProductsFrom 1 n s

/-- Price lookup `products[products['product_id'] == product_id]['price'].iloc[0]`:
`none` models the `IndexError` when no product carries the id. -/
def priceLookup (products : List Product) (pid : Int) : Option Rat :=
  (products.find? (fun p => p.product_id == pid)).map (·.price)

/-- The inner loop of `generate_orders`: for each selected product id, look
up its price and draw `quantity = randint(1, 4)`. -/
def buildItems (products : List Product) : List Int → RandState → Option (List LineItem) × RandState
  | [], s => (some [], s)
  | pid :: rest, s =>
    match priceLookup products pid with
    | none => (none, s)
    | some price =>
      match buildItems products rest (randint 1 4 s).2 with
      | (some items, s2) =>
        (some ({ product_id := pid, quantity := (randint 1 4 s).1, price := price } :: items), s2)
      | (none, s2) => (none, s2)

/-- Embedding of `total_amount` accumulator: `sum of price * quantity` over the items. -/
def itemsTotal (items : List LineItem) : Rat :=
  (items.map (fun it => it.price * (it.quantity : Rat))).sum

def orderStatuses : List String := ["Completed", "Pending", "Cancelled"]

/-- One iteration of `generate_orders`, kept together with the line items
it generated.  `none` models an uncaught exception (empty customer table,
or `sampleNoReplace` asked for more products than exist). -/
def genOrderItems (customers : List Customer) (products : List Product) (i : Nat)
    (s : RandState) : Option (Order × List LineItem) × RandState :=
  match choice (customers.map (·.customer_id)) s with
  | (none, s1) => (none, s1)
  | (some cid, s1) =>
    match sampleNoReplace (products.map (·.product_id))
        (choiceD [1, 2, 3, 4, 5] 1 (randint 0 365 s1).2).1
        (choiceD [1, 2, 3, 4, 5] 1 (randint 0 365 s1).2).2 with
    | (none, s4) => (none, s4)
    | (some sel, s4) =>
      match buildItems products sel s4 with
      | (none, s5) => (none, s5)
      | (some items, s5) =>
        (some ({ order_id := (i : Int), customer_id := cid,
                 order_date := (randint 0 365 s1).1,
                 total_amount := round2 (itemsTotal items),
                 status := (choiceD orderStatuses "Completed" s5).1 }, items),
         (choiceD orderStatuses "Completed" s5).2)

/-- The order-generation loop, keeping each order's line items. -/
def generateOrdersItemsFrom (customers : List Customer) (products : List Product)
    (i : Nat) : Nat → RandState → Option (List (Order × List LineItem)) × RandState
  | 0, s => (some [], s)
  | k + 1, s =>
    match genOrderItems customers products i s with
    | (none, s1) => (none, s1)
    | (some p, s1) =>
      match generateOrdersItemsFrom customers products (i + 1) k s1 with
      | (some ps, s2) => (some (p :: ps), s2)
      | (none, s2) => (none, s2)

def generateOrdersItems (customers : List Customer) (products : List Product)
    (n : Nat) (s : RandState) : Option (List (Order × List LineItem)) × RandState :=
  generateOrdersItemsFrom customers products 1 n s

/-- Embedding of `generate_orders(customers, products, n)`: the orders table (the line
items are internal to the loop and are dropped). -/
def generateOrders (customers : List Customer) (products : List Product)
    (n : Nat) (s : RandState) : Option (List Order) × RandState :=
  match generateOrdersItems customers products n s with
  | (some ps, s') => (some (ps.map Prod.fst), s')
  | (none, s') => (none, s')

/-! ### ETL pipeline (`src/etl_pipeline.py`)

Extracted tables come back from CSV/JSON, so every cell is nullable
(`Option`); a `none` cell models a pandas null (`NaN`/`NaT`/`None`). -/

/-- An extracted customers row (`pd.read_csv('data/customers.csv')`). -/
structure RawCustomer where
  customer_id : Option Int
  name : Option String
  email : Option String
  signup_date : Option String
  location : Option String
  age : Option Int
  customer_segment : Option String
deriving DecidableEq, Repr

/-- An extracted products row (`json.load` of `data/products.json`). -/
structure RawProduct where
  product_id : Option Int
  name : Option String
  category : Option String
  price : Option Rat
  cost : Option Rat
  stock_quantity : Option Int
deriving DecidableEq, Repr

/-- An extracted orders row (`pd.read_csv('data/orders.csv')`). -/
structure RawOrder where
  order_id : Option Int
  customer_id : Option Int
  order_date : Option String
  total_amount : Option Rat
  status : Option String
deriving DecidableEq, Repr

/-- A transformed customers row: `signup_date` parsed to a date code
(`none` = `NaT`), plus the derived `days_since_signup` column. -/
structure TransCustomer where
  customer_id : Option Int
  name : Option String
  email : Option String
  signup_date : Option Int
  location : Option String
  age : Option Int
  customer_segment : Option String
  days_since_signup : Option Int
deriving DecidableEq, Repr

/-- A transformed products row with the derived `profit_margin` column. -/
structure TransProduct where
  product_id : Option Int
  name : Option String
  category : Option String
  price : Option Rat
  cost : Option Rat
  stock_quantity : Option Int
  profit_margin : Option Rat
deriving DecidableEq, Repr

/-- A transformed orders row with parsed `order_date` and the derived
`order_month` / `order_year` bucket columns.  `order_month` is the month
index `year * 12 + month`, standing for the `'YYYY-MM'` string whose
lexicographic order agrees with this numeric order. -/
structure TransOrder where
  order_id : Option Int
  customer_id : Option Int
  order_date : Option Int
  total_amount : Option Rat
  status : Option String
  order_month : Option Int
  order_year : Option Int
deriving DecidableEq, Repr

/-- A calendar date as parsed from a `'YYYY-MM-DD'` string. -/
structure Date where
  year : Int
  month : Int
  day : Int
deriving DecidableEq, Repr

/-- Parse a `'YYYY-MM-DD'` string (`pd.to_datetime` on one cell); `none`
models the `ValueError` on an unparseable string. -/
def parseDate (str : String) : Option Date :=
  match (str.splitOn "-").map String.toNat? with
  | [some y, some m, some d] =>
    if 1 ≤ m ∧ m ≤ 12 ∧ 1 ≤ d ∧ d ≤ 31 then
      some { year := (y : Int), month := (m : Int), day := (d : Int) }
    else none
  | _ => none

/-- A comparable code for a date (monotone in (year, month, day)). -/
def Date.code (d : Date) : Int := (d.year * 12 + d.month) * 31 + d.day

/-- Embedding of `pd.to_datetime` on a nullable cell: a null becomes `NaT` without
raising; a present string must parse or the column conversion raises. -/
def toDatetime (c : Option String) : Except String (Option Date) :=
  match c with
  | none => Except.ok none
  | some str =>
    match parseDate str with
    | some d => Except.ok (some d)
    | none => Except.error ("could not parse date " ++ str)

/-- Transform one customers row (date parse + `days_since_signup`). -/
def transformCustomer (now : Int) (r : RawCustomer) : Except String TransCustomer :=
  match toDatetime r.signup_date with
  | Except.error e => Except.error e
  | Except.ok d =>
    Except.ok { customer_id := r.customer_id, name := r.name, email := r.email,
                signup_date := d.map Date.code, location := r.location, age := r.age,
                customer_segment := r.customer_segment,
                days_since_signup := d.map (fun dd => now - dd.code) }

/-- Transform one orders row (date parse + month/year buckets). -/
def transformOrder (r : RawOrder) : Except String TransOrder :=
  match toDatetime r.order_date with
  | Except.error e => Except.error e
  | Except.ok d =>
    Except.ok { order_id := r.order_id, customer_id := r.customer_id,
                order_date := d.map Date.code, total_amount := r.total_amount,
                status := r.status, order_month := d.map (fun dd => dd.year * 12 + dd.month),
                order_year := d.map (·.year) }

/-- Transform one products row: `profit_margin = round((price - cost) / price * 100, 2)`
(null if either operand is null). -/
def transformProduct (r : RawProduct) : TransProduct :=
  { product_id := r.product_id, name := r.name, category := r.category,
    price := r.price, cost := r.cost, stock_quantity := r.stock_quantity,
    profit_margin :=
      match r.price, r.cost with
      | some p, some c => some (round2 ((p - c) / p * 100))
      | _, _ => none }

/-- Embedding of `isnull().sum()` contribution of one nullable cell. -/
def nullCell {α : Type} (c : Option α) : Nat := if c.isSome then 0 else 1

/-- Embedding of `isnull().sum().sum()` for the customers table. -/
def customersMissing (cs : List TransCustomer) : Nat :=
  (cs.map (fun r => nullCell r.customer_id + nullCell r.name + nullCell r.email +
    nullCell r.signup_date + nullCell r.location + nullCell r.age +
    nullCell r.customer_segment + nullCell r.days_since_signup)).sum

/-- Embedding of `isnull().sum().sum()` for the products table. -/
def productsMissing (ps : List TransProduct) : Nat :=
  (ps.map (fun r => nullCell r.product_id + nullCell r.name + nullCell r.category +
    nullCell r.price + nullCell r.cost + nullCell r.stock_quantity +
    nullCell r.profit_margin)).sum

/-- Embedding of `isnull().sum().sum()` for the orders table. -/
def ordersMissing (os : List TransOrder) : Nat :=
  (os.map (fun r => nullCell r.order_id + nullCell r.customer_id +
    nullCell r.order_date + nullCell r.total_amount + nullCell r.status +
    nullCell r.order_month + nullCell r.order_year)).sum

/-- Embedding of `duplicated().sum()`: the number of rows marked as duplicates of an
earlier identical row, i.e. row count minus distinct-row count. -/
def customerDupes (cs : List TransCustomer) : Nat := cs.length - cs.dedup.length

/-- The warnings `_validate_data` logs (one per nonzero count). -/
def validateWarnings (cs : List TransCustomer) (ps : List TransProduct)
    (os : List TransOrder) : List String :=
  (if customersMissing cs > 0 then
    [toString (customersMissing cs) ++ " missing values in customers data"] else []) ++
  (if productsMissing ps > 0 then
    [toString (productsMissing ps) ++ " missing values in products data"] else []) ++
  (if ordersMissing os > 0 then
    [toString (ordersMissing os) ++ " missing values in orders data"] else []) ++
  (if customerDupes cs > 0 then
    [toString (customerDupes cs) ++ " duplicate customers found"] else [])

/-- Embedding of `_validate_data`: reads the three tables, logs warnings, mutates
nothing and raises nothing — modelled as the total function returning the
tables it was given together with the warnings it logged. -/
def validateData (cs : List TransCustomer) (ps : List TransProduct) (os : List TransOrder) :
    (List TransCustomer × List TransProduct × List TransOrder) × List String :=
  ((cs, ps, os), validateWarnings cs ps os)

/-- Apply a fallible row transformation down a table, stopping at the
first raised error (pandas converts a whole column at once; the first bad
cell aborts the conversion). -/
def mapExcept {α β : Type} (f : α → Except String β) : List α → Except String (List β)
  | [] => Except.ok []
  | x :: xs =>
    match f x with
    | Except.error e => Except.error e
    | Except.ok y =>
      match mapExcept f xs with
      | Except.error e => Except.error e
      | Except.ok ys => Except.ok (y :: ys)

/-- Embedding of `transform_data`: parse dates, add derived columns (customers, then
orders, then products, as in the source), then run the data-quality
checks.  Failure (`Except.error`) only arises from the date conversions. -/
def transformData (now : Int) (cs : List RawCustomer) (ps : List RawProduct)
    (os : List RawOrder) :
    Except String ((List TransCustomer × List TransProduct × List TransOrder) × List String) :=
  match mapExcept (transformCustomer now) cs with
  | Except.error e => Except.error e
  | Except.ok tcs =>
    match mapExcept transformOrder os with
    | Except.error e => Except.error e
    | Except.ok tos =>
      let tps := ps.map transformProduct
      Except.ok (validateData tcs tps tos)

/-! ### Load (`ECommerceETL.load_data`) -/

/-- The relational store: three tables plus the set of index names. -/
structure Store (α β γ : Type) where
  customers : List α
  products : List β
  orders : List γ
  indexes : List String
deriving DecidableEq, Repr

/-- Embedding of `CREATE INDEX IF NOT EXISTS name … `: adds the index name only when
it is not already present. -/
def createIndexIfNotExists (name : String) (idxs : List String) : List String :=
  if name ∈ idxs then idxs else idxs ++ [name]

/-- The four indexes `load_data` creates, in creation order. -/
def loadIndexNames : List String :=
  ["idx_customer_id", "idx_product_id", "idx_order_date", "idx_order_customer"]

/-- Embedding of `load_data`: write each table with `if_exists='replace'` (the stored
table becomes exactly the input table), then create the four indexes
guarded by `IF NOT EXISTS`. -/
def loadData {α β γ : Type} (cs : List α) (ps : List β) (os : List γ)
    (st : Store α β γ) : Store α β γ :=
  { customers := cs, products := ps, orders := os,
    indexes := loadIndexNames.foldl (fun ix n => createIndexIfNotExists n ix) st.indexes }

/-! ### Extract and the full pipeline -/

/-- The three source files.  The outer `Option` is file existence
(`none` = missing file), the inner one is parseability
(`none` = present but malformed). -/
structure SourceFiles where
  customersFile : Option (Option (List RawCustomer))
  productsFile : Option (Option (List RawProduct))
  ordersFile : Option (Option (List RawOrder))

/-- A file is missing or malformed (reading it raises). -/
def fileBad {α : Type} (f : Option (Option α)) : Prop := f = none ∨ f = some none

/-- Read one source file; raises (`Except.error`) when the file is
missing or malformed. -/
def readSource {α : Type} (name : String) (f : Option (Option α)) : Except String α :=
  match f with
  | none => Except.error (name ++ ": file not found")
  | some none => Except.error (name ++ ": malformed")
  | some (some t) => Except.ok t

/-- Embedding of `extract_data`: read customers, then orders, then products (the order
of the source); the first failure propagates and aborts extraction. -/
def extractData (fs : SourceFiles) :
    Except String (List RawCustomer × List RawOrder × List RawProduct) :=
  match readSource "data/customers.csv" fs.customersFile with
  | Except.error e => Except.error e
  | Except.ok cs =>
    match readSource "data/orders.csv" fs.ordersFile with
    | Except.error e => Except.error e
    | Except.ok os =>
      match readSource "data/products.json" fs.productsFile with
      | Except.error e => Except.error e
      | Except.ok ps => Except.ok (cs, os, ps)

/-- The pipeline stages, for recording which stages actually ran. -/
inductive Step where
  | extract
  | transform
  | load
deriving DecidableEq, Repr

/-- Embedding of `run_pipeline`: extract, transform, load in sequence; an uncaught
exception in a stage stops the run there.  Returns the outcome together
with the list of stages that were entered. -/
def runPipeline (now : Int) (fs : SourceFiles)
    (st : Store TransCustomer TransProduct TransOrder) :
    Except String (Store TransCustomer TransProduct TransOrder) × List Step :=
  match extractData fs with
  | Except.error e => (Except.error e, [Step.extract])
  | Except.ok (cs, os, ps) =>
    match transformData now cs ps os with
    | Except.error e => (Except.error e, [Step.extract, Step.transform])
    | Except.ok ((tcs, tps, tos), _warns) =>
      (Except.ok (loadData tcs tps tos st), [Step.extract, Step.transform, Step.load])

/-! ### SQL reporting layer (`src/sql_analysis.py`)

The queries run over whatever is in the store, so they are modelled as
functions of arbitrary loaded rows.  Only the columns the five queries
touch are modelled.  `order_month` is the numeric month index standing
for the `'YYYY-MM'` bucket string (same ordering). -/

/-- A loaded orders row as seen by the SQL layer. -/
structure DbOrder where
  order_id : Int
  customer_id : Int
  order_month : Nat
  total_amount : Rat
  status : String
deriving DecidableEq, Repr

/-- A loaded customers row as seen by the SQL layer. -/
structure DbCustomer where
  customer_id : Int
  location : String
  customer_segment : String
deriving DecidableEq, Repr

/-- Embedding of `WHERE status = 'Completed'`. -/
def completedOrders (os : List DbOrder) : List DbOrder :=
  os.filter (fun o => o.status == "Completed")

/-- The group of a `GROUP BY order_month` bucket. -/
def monthGroup (os : List DbOrder) (m : Nat) : List DbOrder :=
  os.filter (fun o => o.order_month == m)

/-- A result row of `monthly_revenue_analysis`. -/
structure MonthlyRow where
  order_month : Nat
  revenue : Rat
  order_count : Nat
  avg_order_value : Rat
deriving DecidableEq, Repr

/-- The distinct month buckets of the completed orders, in ascending
order (`GROUP BY order_month … ORDER BY order_month`). -/
def monthlyMonths (os : List DbOrder) : List Nat :=
  (((completedOrders os).map (·.order_month)).dedup).insertionSort (· ≤ ·)

/-- Embedding of `monthly_revenue_analysis`: completed orders grouped by month with
`ROUND(SUM(total_amount), 2)`, `COUNT(*)` and `ROUND(AVG(total_amount), 2)`,
ordered by month ascending. -/
def monthlyRevenueAnalysis (os : List DbOrder) : List MonthlyRow :=
  (monthlyMonths os).map fun m =>
    { order_month := m,
      revenue := round2 (((monthGroup (completedOrders os) m).map (·.total_amount)).sum),
      order_count := (monthGroup (completedOrders os) m).length,
      avg_order_value := round2 ((((monthGroup (completedOrders os) m).map (·.total_amount)).sum)
        / ((monthGroup (completedOrders os) m).length : Rat)) }

/-- A result row of `geographic_analysis`. -/
structure GeoRow where
  location : String
  customer_count : Nat
  total_orders : Nat
  total_revenue : Rat
deriving DecidableEq, Repr

/-- The customers rows at one location. -/
def custsAt (cs : List DbCustomer) (loc : String) : List DbCustomer :=
  cs.filter (fun c => c.location == loc)

/-- The join rows of
`customers c LEFT JOIN orders o ON c.customer_id = o.customer_id AND o.status = 'Completed'`
that fall in location `loc` and have a matched (non-null) order.  An
unmatched customer contributes a row with a null order, which
`COUNT(o.order_id)` and `SUM(o.total_amount)` both skip, so only the
matched pairs are needed for those aggregates. -/
def joinPairs (cs : List DbCustomer) (os : List DbOrder) (loc : String) :
    List (DbCustomer × DbOrder) :=
  (custsAt cs loc).flatMap fun c =>
    (os.filter (fun o => o.customer_id == c.customer_id && o.status == "Completed")).map
      (fun o => (c, o))

/-- The distinct customer locations (`GROUP BY c.location`). -/
def geoLocations (cs : List DbCustomer) : List String := (cs.map (·.location)).dedup

/-- One result group of `geographic_analysis`:
`COUNT(DISTINCT c.customer_id)`, `COUNT(o.order_id)` and
`ROUND(COALESCE(SUM(o.total_amount), 0), 2)` for one location. -/
def geoRow (cs : List DbCustomer) (os : List DbOrder) (loc : String) : GeoRow :=
  { location := loc,
    customer_count := ((custsAt cs loc).map (·.customer_id)).dedup.length,
    total_orders := (joinPairs cs os loc).length,
    total_revenue := round2 (((joinPairs cs os loc).map fun p => p.2.total_amount).sum) }

/-- Embedding of `geographic_analysis`: one group per distinct customer location,
ordered by revenue descending. -/
def geographicAnalysis (cs : List DbCustomer) (os : List DbOrder) : List GeoRow :=
  ((geoLocations cs).map (geoRow cs os)).insertionSort
    fun r1 r2 => r2.total_revenue ≤ r1.total_revenue

/-- Embedding of `run_query`: open a connection, execute, close; any exception is
caught and logged and `None` is returned.  The database engine is the
abstract `exec` argument; a `τ`-valued table on success, an error
message on failure. -/
def runQuery {τ : Type} (exec : String → Except String τ) (q : String) : Option τ :=
  match exec q with
  | Except.ok t => some t
  | Except.error _ => none

/-- The five fixed analyses of `run_full_analysis`, as (display name,
query key) pairs in execution order. -/
def analysisQueries : List (String × String) :=
  [("Database Overview", "basic_stats"),
   ("Monthly Revenue", "monthly_revenue_analysis"),
   ("Customer Segments", "customer_segmentation"),
   ("Geographic Performance", "geographic_analysis"),
   ("Top Revenue Months", "top_revenue_months")]

/-- Embedding of `run_full_analysis`: run the five queries independently (each through
its own `run_query`, hence its own connection) and collect the per-query
results, absent (`none`) for a failed query. -/
def runFullAnalysis {τ : Type} (exec : String → Except String τ) :
    List (String × Option τ) :=
  analysisQueries.map fun nq => (nq.1, runQuery exec nq.2)

/-! ## Supporting lemmas -/

theorem mem_createIndexIfNotExists_of_mem {m n : String} {ix : List String}
    (h : m ∈ ix) : m ∈ createIndexIfNotExists n ix := by
  unfold createIndexIfNotExists
  split
  · exact h
  · exact List.mem_append_left _ h

theorem self_mem_createIndexIfNotExists (n : String) (ix : List String) :
    n ∈ createIndexIfNotExists n ix := by
  unfold createIndexIfNotExists
  split
  · assumption
  · exact List.mem_append_right _ (List.mem_singleton_self n)

theorem createIndexIfNotExists_of_mem {n : String} {ix : List String} (h : n ∈ ix) :
    createIndexIfNotExists n ix = ix := if_pos h

theorem mem_foldl_createIndex_of_mem {m : String} {ns ix : List String} (h : m ∈ ix) :
    m ∈ ns.foldl (fun acc n => createIndexIfNotExists n acc) ix := by
  induction ns generalizing ix with
  | nil => exact h
  | cons a as ih => exact ih (mem_createIndexIfNotExists_of_mem h)

theorem mem_foldl_createIndex_self {n : String} {ns : List String} (ix : List String)
    (h : n ∈ ns) : n ∈ ns.foldl (fun acc n => createIndexIfNotExists n acc) ix := by
  induction ns generalizing ix with
  | nil => cases h
  | cons a as ih =>
    simp only [List.foldl_cons]
    rcases List.mem_cons.mp h with rfl | h'
    · exact mem_foldl_createIndex_of_mem (self_mem_createIndexIfNotExists _ _)
    · exact ih _ h'

theorem foldl_createIndex_of_all_mem {ns ix : List String} (h : ∀ n ∈ ns, n ∈ ix) :
    ns.foldl (fun acc n => createIndexIfNotExists n acc) ix = ix := by
  induction ns generalizing ix with
  | nil => rfl
  | cons a as ih =>
    have ha : a ∈ ix := h a (List.mem_cons_self a as)
    simp only [List.foldl_cons, createIndexIfNotExists_of_mem ha]
    exact ih fun n hn => h n (List.mem_cons_of_mem a hn)

theorem runPipeline_extract_error {now : Int} {fs : SourceFiles}
    {st : Store TransCustomer TransProduct TransOrder} {e : String}
    (h : extractData fs = Except.error e) :
    runPipeline now fs st = (Except.error e, [Step.extract]) := by
  unfold runPipeline
  rw [h]

theorem mapExcept_ok_iff {α β : Type} (f : α → Except String β) (xs : List α) :
    (∃ ys, mapExcept f xs = Except.ok ys) ↔ ∀ x ∈ xs, ∃ y, f x = Except.ok y := by
  induction xs with
  | nil => simp [mapExcept]
  | cons a as ih =>
    constructor
    · rintro ⟨ys, hys⟩ x hx
      unfold mapExcept at hys
      rcases ha : f a with e | y <;> rw [ha] at hys
      · cases hys
      · rcases has : mapExcept f as with e | ys' <;> rw [has] at hys
        · cases hys
        · rcases List.mem_cons.mp hx with rfl | hx'
          · exact ⟨y, ha⟩
          · exact ih.mp ⟨ys', has⟩ x hx'
    · intro h
      obtain ⟨y, hy⟩ := h a (List.mem_cons_self a as)
      obtain ⟨ys, hys⟩ := ih.mpr fun x hx => h x (List.mem_cons_of_mem a hx)
      exact ⟨y :: ys, by simp [mapExcept, hy, hys]⟩

theorem transformCustomer_ok_iff {now : Int} {c : RawCustomer} :
    (∃ y, transformCustomer now c = Except.ok y) ↔
      ∃ d, toDatetime c.signup_date = Except.ok d := by
  rcases h : toDatetime c.signup_date with e | d <;> simp [transformCustomer, h]

theorem transformOrder_ok_iff {o : RawOrder} :
    (∃ y, transformOrder o = Except.ok y) ↔
      ∃ d, toDatetime o.order_date = Except.ok d := by
  rcases h : toDatetime o.order_date with e | d <;> simp [transformOrder, h]

theorem qmod_bounds {m : Rat} (hm : 0 < m) (x : Rat) : 0 ≤ qmod x m ∧ qmod x m < m := by
  unfold qmod
  have hne : m ≠ 0 := ne_of_gt hm
  constructor
  · have h1 : m * ((Int.floor (x / m) : Int) : Rat) ≤ m * (x / m) :=
      mul_le_mul_of_nonneg_left (Int.floor_le (x / m)) hm.le
    rw [mul_div_cancel₀ x hne] at h1
    linarith
  · have h2 : x / m < ((Int.floor (x / m) : Int) : Rat) + 1 := Int.lt_floor_add_one (x / m)
    have h3 : m * (x / m) < m * (((Int.floor (x / m) : Int) : Rat) + 1) :=
      (mul_lt_mul_left hm).mpr h2
    rw [mul_div_cancel₀ x hne] at h3
    nlinarith

theorem uniform_bounds {lo hi : Rat} (h : lo < hi) (s : RandState) :
    lo ≤ (uniform lo hi s).1 ∧ (uniform lo hi s).1 < hi := by
  unfold uniform
  dsimp only
  obtain ⟨h1, h2⟩ := qmod_bounds (show (0:Rat) < hi - lo by linarith) s.next.1
  constructor <;> linarith

theorem randint_bounds {lo hi : Int} (h : lo < hi) (s : RandState) :
    lo ≤ (randint lo hi s).1 ∧ (randint lo hi s).1 < hi := by
  unfold randint
  dsimp only
  have h1 : 0 ≤ (toIndex s.next.1 : Int) % (hi - lo) := Int.emod_nonneg _ (by omega)
  have h2 : (toIndex s.next.1 : Int) % (hi - lo) < hi - lo :=
    Int.emod_lt_of_pos _ (by omega)
  omega

theorem choice_mem {α : Type} {xs : List α} {s : RandState} {a : α}
    (h : (choice xs s).1 = some a) : a ∈ xs := by
  unfold choice at h
  dsimp only at h
  obtain ⟨hlt, rfl⟩ := List.getElem?_eq_some.mp h
  exact List.getElem_mem hlt

theorem choice_isSome {α : Type} {xs : List α} (hne : xs ≠ []) (s : RandState) :
    ∃ a, (choice xs s).1 = some a := by
  unfold choice
  dsimp only
  have hlt : toIndex s.next.1 % xs.length < xs.length :=
    Nat.mod_lt _ (List.length_pos.mpr hne)
  exact ⟨_, List.getElem?_eq_getElem hlt⟩

theorem choiceD_mem {α : Type} {xs : List α} (d : α) (s : RandState) (h : xs ≠ []) :
    (choiceD xs d s).1 ∈ xs := by
  unfold choiceD
  dsimp only
  have hlt : toIndex s.next.1 % xs.length < xs.length :=
    Nat.mod_lt _ (List.length_pos.mpr h)
  rw [List.getD_eq_getElem xs d hlt]
  exact List.getElem_mem hlt

theorem sampleNoReplace_spec {α : Type} (k : Nat) :
    ∀ (xs : List α) (s s' : RandState) (sel : List α),
      sampleNoReplace xs k s = (some sel, s') →
      sel.length = k ∧ (∀ x ∈ sel, x ∈ xs) ∧ (xs.Nodup → sel.Nodup) := by
  induction k with
  | zero =>
    intro xs s s' sel h
    unfold sampleNoReplace at h
    simp only [Prod.mk.injEq, Option.some.injEq] at h
    obtain ⟨rfl, rfl⟩ := h
    simp
  | succ k ih =>
    intro xs s s' sel h
    unfold sampleNoReplace at h
    split at h
    · exact absurd (congrArg Prod.fst h) (by simp)
    · rename_i hlen
      rcases hrec : sampleNoReplace (xs.eraseIdx (toIndex s.next.1 % xs.length)) k s.next.2
        with ⟨osel, s2⟩
      rw [hrec] at h
      cases osel with
      | none => exact absurd (congrArg Prod.fst h) (by simp)
      | some sel' =>
        simp only [Prod.mk.injEq, Option.some.injEq] at h
        obtain ⟨hsel, rfl⟩ := h
        subst hsel
        obtain ⟨hlen', hmem, hnd⟩ := ih _ _ _ _ hrec
        have hjlt : toIndex s.next.1 % xs.length < xs.length :=
          Nat.mod_lt _ (Nat.pos_of_ne_zero hlen)
        refine ⟨by simp [hlen'], ?_, ?_⟩
        · intro x hx
          rcases List.mem_cons.mp hx with rfl | hx'
          · exact List.get_mem xs _ hjlt
          · exact List.eraseIdx_subset xs _ (hmem x hx')
        · intro hxs
          rw [List.nodup_cons]
          refine ⟨?_, hnd (hxs.eraseIdx _)⟩
          intro hmem'
          have h2 := hmem _ hmem'
          rw [List.mem_eraseIdx_iff_getElem] at h2
          obtain ⟨i2, hi2, hne, heq⟩ := h2
          exact hne (hxs.getElem_inj_iff.mp heq)

theorem sampleNoReplace_none_iff {α : Type} (k : Nat) :
    ∀ (xs : List α) (s : RandState),
      (sampleNoReplace xs k s).1 = none ↔ xs.length < k := by
  induction k with
  | zero =>
    intro xs s
    unfold sampleNoReplace
    simp
  | succ k ih =>
    intro xs s
    unfold sampleNoReplace
    split
    · rename_i hlen
      simp [hlen]
    · rename_i hlen
      have hpos : 0 < xs.length := Nat.pos_of_ne_zero hlen
      have hjlt : toIndex s.next.1 % xs.length < xs.length := Nat.mod_lt _ hpos
      have hlen' : (xs.eraseIdx (toIndex s.next.1 % xs.length)).length = xs.length - 1 := by
        rw [List.length_eraseIdx]
        simp [hjlt]
      have hih := ih (xs.eraseIdx (toIndex s.next.1 % xs.length)) s.next.2
      rw [hlen'] at hih
      rcases hrec : sampleNoReplace (xs.eraseIdx (toIndex s.next.1 % xs.length)) k s.next.2
        with ⟨osel, s2⟩
      rw [hrec] at hih
      cases osel <;> simp_all <;> omega

theorem priceLookup_isSome {products : List Product} {pid : Int}
    (h : pid ∈ products.map (·.product_id)) : ∃ pr, priceLookup products pid = some pr := by
  obtain ⟨p, hp, rfl⟩ := List.mem_map.mp h
  unfold priceLookup
  have hsome : (products.find? (fun q => q.product_id == p.product_id)).isSome := by
    rw [List.find?_isSome]
    exact ⟨p, hp, by simp⟩
  obtain ⟨q, hq⟩ := Option.isSome_iff_exists.mp hsome
  exact ⟨q.price, by rw [hq]; rfl⟩

theorem buildItems_spec (products : List Product) :
    ∀ (sel : List Int) (s s' : RandState) (items : List LineItem),
      buildItems products sel s = (some items, s') →
      items.map (·.product_id) = sel
      ∧ ∀ it ∈ items, 1 ≤ it.quantity ∧ it.quantity ≤ 3 := by
  intro sel
  induction sel with
  | nil =>
    intro s s' items h
    unfold buildItems at h
    simp only [Prod.mk.injEq, Option.some.injEq] at h
    obtain ⟨rfl, rfl⟩ := h
    simp
  | cons pid rest ih =>
    intro s s' items h
    unfold buildItems at h
    rcases hpl : priceLookup products pid with _ | price <;> rw [hpl] at h
    · exact absurd (congrArg Prod.fst h) (by simp)
    · rcases hrec : buildItems products rest (randint 1 4 s).2 with ⟨oitems, s2⟩
      rw [hrec] at h
      cases oitems with
      | none => exact absurd (congrArg Prod.fst h) (by simp)
      | some items' =>
        simp only [Prod.mk.injEq, Option.some.injEq] at h
        obtain ⟨hitems, rfl⟩ := h
        subst hitems
        obtain ⟨hmap, hq⟩ := ih _ _ _ hrec
        refine ⟨by simp [hmap], ?_⟩
        intro it hit
        rcases List.mem_cons.mp hit with rfl | hit'
        · obtain ⟨hb1, hb2⟩ := randint_bounds (show (1:Int) < 4 by norm_num) s
          constructor <;> dsimp only <;> omega
        · exact hq it hit'

theorem buildItems_isSome (products : List Product) :
    ∀ (sel : List Int) (s : RandState),
      (∀ pid ∈ sel, pid ∈ products.map (·.product_id)) →
      ∃ items s', buildItems products sel s = (some items, s') := by
  intro sel
  induction sel with
  | nil =>
    intro s _
    exact ⟨[], s, rfl⟩
  | cons pid rest ih =>
    intro s h
    obtain ⟨pr, hpr⟩ := priceLookup_isSome (h pid (List.mem_cons_self _ _))
    obtain ⟨items, s', hrec⟩ := ih (randint 1 4 s).2 fun q hq => h q (List.mem_cons_of_mem _ hq)
    refine ⟨⟨pid, (randint 1 4 s).1, pr⟩ :: items, s', ?_⟩
    unfold buildItems
    rw [hpr]
    simp only []
    rw [hrec]

theorem genOrderItems_spec {customers : List Customer} {products : List Product}
    {i : Nat} {s s' : RandState} {op : Order × List LineItem}
    (h : genOrderItems customers products i s = (some op, s')) :
    op.1.total_amount = round2 (itemsTotal op.2)
    ∧ ((products.map (·.product_id)).Nodup → (op.2.map (·.product_id)).Nodup)
    ∧ (∀ it ∈ op.2, 1 ≤ it.quantity ∧ it.quantity ≤ 3)
    ∧ 1 ≤ op.2.length ∧ op.2.length ≤ 5
    ∧ op.1.customer_id ∈ customers.map (·.customer_id) := by
  unfold genOrderItems at h
  split at h
  · exact absurd (congrArg Prod.fst h) (by simp)
  · rename_i cid s1 heq1
    split at h
    · exact absurd (congrArg Prod.fst h) (by simp)
    · rename_i sel s4 heq2
      split at h
      · exact absurd (congrArg Prod.fst h) (by simp)
      · rename_i items s5 heq3
        simp only [Prod.mk.injEq, Option.some.injEq] at h
        obtain ⟨hop, rfl⟩ := h
        subst hop
        obtain ⟨hlen, hmemsel, hndsel⟩ := sampleNoReplace_spec _ _ _ _ _ heq2
        obtain ⟨hmap, hq⟩ := buildItems_spec products _ _ _ _ heq3
        have hni : (choiceD [1, 2, 3, 4, 5] 1 (randint 0 365 s1).2).1 ∈ [1, 2, 3, 4, 5] :=
          choiceD_mem _ _ (by simp)
        have hni' : 1 ≤ (choiceD [1, 2, 3, 4, 5] 1 (randint 0 365 s1).2).1
            ∧ (choiceD [1, 2, 3, 4, 5] 1 (randint 0 365 s1).2).1 ≤ 5 := by
          simp only [List.mem_cons, List.not_mem_nil, or_false] at hni
          omega
        have hitlen : items.length = sel.length := by
          rw [← hmap, List.length_map]
        refine ⟨rfl, ?_, hq, ?_, ?_, ?_⟩
        · intro hnd
          rw [hmap]
          exact hndsel hnd
        · dsimp only
          omega
        · dsimp only
          omega
        · exact choice_mem (congrArg Prod.fst heq1)

theorem genOrderItems_isSome {customers : List Customer} {products : List Product}
    (hc : customers ≠ []) (hp : 5 ≤ products.length) (i : Nat) (s : RandState) :
    ∃ op s', genOrderItems customers products i s = (some op, s') := by
  unfold genOrderItems
  obtain ⟨cid, hcid⟩ := choice_isSome
    (show customers.map (·.customer_id) ≠ [] by simpa using hc) s
  rcases h1 : choice (customers.map (·.customer_id)) s with ⟨cid?, s1⟩
  rw [h1] at hcid
  cases cid? with
  | none => exact absurd hcid (by simp)
  | some c =>
    have hni : (choiceD [1, 2, 3, 4, 5] 1 (randint 0 365 s1).2).1 ∈ [1, 2, 3, 4, 5] :=
      choiceD_mem _ _ (by simp)
    have hni5 : (choiceD [1, 2, 3, 4, 5] 1 (randint 0 365 s1).2).1 ≤ 5 := by
      simp only [List.mem_cons, List.not_mem_nil, or_false] at hni
      omega
    have hs : ¬((sampleNoReplace (products.map (·.product_id))
        (choiceD [1, 2, 3, 4, 5] 1 (randint 0 365 s1).2).1
        (choiceD [1, 2, 3, 4, 5] 1 (randint 0 365 s1).2).2).1 = none) := by
      rw [sampleNoReplace_none_iff]
      simp only [List.length_map]
      omega
    rcases h2 : sampleNoReplace (products.map (·.product_id))
        (choiceD [1, 2, 3, 4, 5] 1 (randint 0 365 s1).2).1
        (choiceD [1, 2, 3, 4, 5] 1 (randint 0 365 s1).2).2 with ⟨sel?, s4⟩
    rw [h2] at hs
    cases sel? with
    | none => exact absurd rfl hs
    | some sel =>
      obtain ⟨items, s5, h3⟩ := buildItems_isSome products sel s4
        (sampleNoReplace_spec _ _ _ _ _ h2).2.1
      simp only [h1, h2, h3]
      exact ⟨_, _, rfl⟩

theorem generateOrdersItemsFrom_spec {customers : List Customer} {products : List Product}
    (k : Nat) :
    ∀ (i : Nat) (s s' : RandState) (prs : List (Order × List LineItem)),
      generateOrdersItemsFrom customers products i k s = (some prs, s') →
      ∀ op ∈ prs,
        op.1.total_amount = round2 (itemsTotal op.2)
        ∧ ((products.map (·.product_id)).Nodup → (op.2.map (·.product_id)).Nodup)
        ∧ (∀ it ∈ op.2, 1 ≤ it.quantity ∧ it.quantity ≤ 3)
        ∧ 1 ≤ op.2.length ∧ op.2.length ≤ 5
        ∧ op.1.customer_id ∈ customers.map (·.customer_id) := by
  induction k with
  | zero =>
    intro i s s' prs h op hop
    unfold generateOrdersItemsFrom at h
    simp only [Prod.mk.injEq, Option.some.injEq] at h
    obtain ⟨rfl, rfl⟩ := h
    cases hop
  | succ k ih =>
    intro i s s' prs h op hop
    unfold generateOrdersItemsFrom at h
    split at h
    · exact absurd (congrArg Prod.fst h) (by simp)
    · rename_i op0 s1 heq1
      split at h
      · rename_i prs' s2 heq2
        simp only [Prod.mk.injEq, Option.some.injEq] at h
        obtain ⟨hprs, rfl⟩ := h
        subst hprs
        rcases List.mem_cons.mp hop with rfl | hop'
        · exact genOrderItems_spec heq1
        · exact ih _ _ _ _ heq2 op hop'
      · exact absurd (congrArg Prod.fst h) (by simp)

theorem generateOrdersItemsFrom_isSome {customers : List Customer} {products : List Product}
    (hc : customers ≠ []) (hp : 5 ≤ products.length) (k : Nat) :
    ∀ (i : Nat) (s : RandState),
      ∃ prs s', generateOrdersItemsFrom customers products i k s = (some prs, s') := by
  induction k with
  | zero =>
    intro i s
    exact ⟨[], s, rfl⟩
  | succ k ih =>
    intro i s
    obtain ⟨op, s1, h1⟩ := genOrderItems_isSome hc hp i s
    obtain ⟨prs, s2, h2⟩ := ih (i + 1) s1
    refine ⟨op :: prs, s2, ?_⟩
    unfold generateOrdersItemsFrom
    rw [h1]
    simp only []
    rw [h2]

/-- Rounding to two decimals moves a value by at most half a cent. -/
theorem abs_round2_sub_le (y : Rat) : |round2 y - y| ≤ 1 / 200 := by
  unfold round2
  have h := abs_sub_round (y * 100)
  rw [abs_sub_comm] at h
  have heq : ((round (y * 100) : Int) : Rat) / 100 - y =
      (((round (y * 100) : Int) : Rat) - y * 100) / 100 := by ring
  rw [heq, abs_div, abs_of_pos (show (0:Rat) < 100 by norm_num)]
  linarith

theorem generateProductsFrom_spec :
    ∀ (k i : Nat) (s : RandState), ∀ p ∈ (generateProductsFrom i k s).1,
      ∃ b : Rat, 10 ≤ b ∧ b < 500 ∧ p.price = round2 b ∧ p.cost = round2 (b * (3 / 5))
        ∧ 0 ≤ p.stock_quantity := by
  intro k
  induction k with
  | zero => intro i s p hp; cases hp
  | succ k ih =>
    intro i s p hp
    unfold generateProductsFrom at hp
    dsimp only at hp
    rcases List.mem_cons.mp hp with rfl | hp'
    · refine ⟨(uniform 10 500 (choiceD productCategories "Electronics" s).2).1, ?_, ?_, rfl, rfl, ?_⟩
      · exact (uniform_bounds (by norm_num) _).1
      · exact (uniform_bounds (by norm_num) _).2
      · exact (randint_bounds (by norm_num) _).1
    · exact ih _ _ p hp'

theorem sum_map_filter_partition {α : Type} (p : α → Bool) (g : α → Rat) (l : List α) :
    ((l.filter p).map g).sum + ((l.filter fun x => !(p x)).map g).sum = (l.map g).sum := by
  induction l with
  | nil => simp
  | cons x xs ih => by_cases h : p x <;> simp [h] <;> linarith

/-- Summing group sums over a duplicate-free covering family of keys
recovers the total sum (the `GROUP BY` partition identity). -/
theorem sum_groups {α β : Type} [BEq β] [LawfulBEq β] (f : α → β) (g : α → Rat) :
    ∀ (keys : List β) (l : List α), keys.Nodup → (∀ x ∈ l, f x ∈ keys) →
      (keys.map fun k => ((l.filter fun x => f x == k).map g).sum).sum = (l.map g).sum := by
  intro keys
  induction keys with
  | nil =>
    intro l _ hcov
    have hl : l = [] := List.eq_nil_iff_forall_not_mem.mpr fun x hx => by simpa using hcov x hx
    subst hl
    simp
  | cons k ks ih =>
    intro l hnd hcov
    simp only [List.map_cons, List.sum_cons]
    have hstep : ∀ q ∈ ks,
        ((l.filter fun x => f x == q).map g).sum
          = ((((l.filter fun x => !(f x == k)).filter fun x => f x == q)).map g).sum := by
      intro q hq
      have hne : q ≠ k := fun heq => (List.nodup_cons.mp hnd).1 (heq ▸ hq)
      rw [List.filter_filter]
      have hf : (l.filter fun x => f x == q) = l.filter fun x => (f x == q) && !(f x == k) := by
        apply List.filter_congr
        intro x _
        cases hfx : f x == q with
        | false => simp [hfx]
        | true =>
          have hxq : f x = q := by simpa using hfx
          have hxk : (f x == k) = false := by
            simp only [beq_eq_false_iff_ne, ne_eq, hxq]
            exact hne
          simp [hfx, hxk]
      rw [← hf]
    have htail : (ks.map fun q => ((l.filter fun x => f x == q).map g).sum).sum
        = ((l.filter fun x => !(f x == k)).map g).sum := by
      rw [List.map_congr_left hstep]
      exact ih (l.filter fun x => !(f x == k)) (List.nodup_cons.mp hnd).2 fun x hx => by
        obtain ⟨hxl, hpx⟩ := List.mem_filter.mp hx
        rcases List.mem_cons.mp (hcov x hxl) with heq | hmem
        · rw [heq] at hpx
          simp at hpx
        · exact hmem
    rw [htail, sum_map_filter_partition]

/-- Rounding each summand to two decimals moves the sum by at most half a
cent per summand. -/
theorem sum_round2_bound : ∀ qs : List Rat,
    |(qs.map round2).sum - qs.sum| ≤ (qs.length : Rat) * (1 / 200) := by
  intro qs
  induction qs with
  | nil => simp
  | cons q qs ih =>
    simp only [List.map_cons, List.sum_cons, List.length_cons]
    have h := abs_round2_sub_le q
    have habs : |round2 q + (List.map round2 qs).sum - (q + qs.sum)|
        ≤ |round2 q - q| + |(List.map round2 qs).sum - qs.sum| := by
      have : round2 q + (List.map round2 qs).sum - (q + qs.sum)
          = (round2 q - q) + ((List.map round2 qs).sum - qs.sum) := by ring
      rw [this]
      exact abs_add _ _
    push_cast
    linarith

theorem completedOrders_idem (os : List DbOrder) :
    completedOrders (completedOrders os) = completedOrders os := by
  unfold completedOrders
  rw [List.filter_filter]
  apply List.filter_congr
  intro x _
  simp

/-! ## Claims -/

/-- C1: for every order produced by order generation, together with the
line items the generation loop built for it, the order's total amount is
the two-decimal rounding of the sum of price × quantity over those items,
the selected product ids are pairwise distinct (the catalog ids being
distinct), every quantity lies in [1, 3], and the line-item count lies in
[1, 5]. -/
theorem c1_order_total_and_items (customers : List Customer) (products : List Product)
    (n : Nat) (s s' : RandState) (prs : List (Order × List LineItem))
    (hnd : (products.map (·.product_id)).Nodup)
    (h : generateOrdersItems customers products n s = (some prs, s')) :
    ∀ op ∈ prs,
      op.1.total_amount = round2 (itemsTotal op.2)
      ∧ (op.2.map (·.product_id)).Nodup
      ∧ (∀ it ∈ op.2, 1 ≤ it.quantity ∧ it.quantity ≤ 3)
      ∧ 1 ≤ op.2.length ∧ op.2.length ≤ 5 := by
  intro op hop
  obtain ⟨h1, h2, h3, h4, h5, _⟩ := generateOrdersItemsFrom_spec n 1 s s' prs h op hop
  exact ⟨h1, h2 hnd, h3, h4, h5⟩

/-- C1 witness: the property on the first order of a concrete run (one
customer, one product, constant-zero stream). -/
theorem c1_order_total_and_items_witness :
    (((generateOrdersItems [⟨1, "Customer_1", "user1@email.com", 0, "London", 30, "Basic"⟩]
          [⟨1, "Books_Product_1", "Books", 10, 6, 0⟩] 1 ⟨fun _ => 0, 0⟩).1.getD []).head
        (List.cons_ne_nil _ _)).1.total_amount =
      round2 (itemsTotal
        (((generateOrdersItems [⟨1, "Customer_1", "user1@email.com", 0, "London", 30, "Basic"⟩]
            [⟨1, "Books_Product_1", "Books", 10, 6, 0⟩] 1 ⟨fun _ => 0, 0⟩).1.getD []).head
          (List.cons_ne_nil _ _)).2)
    ∧ ((((generateOrdersItems [⟨1, "Customer_1", "user1@email.com", 0, "London", 30, "Basic"⟩]
          [⟨1, "Books_Product_1", "Books", 10, 6, 0⟩] 1 ⟨fun _ => 0, 0⟩).1.getD []).head
        (List.cons_ne_nil _ _)).2.map (·.product_id)).Nodup
    ∧ (∀ it ∈ (((generateOrdersItems
          [⟨1, "Customer_1", "user1@email.com", 0, "London", 30, "Basic"⟩]
          [⟨1, "Books_Product_1", "Books", 10, 6, 0⟩] 1 ⟨fun _ => 0, 0⟩).1.getD []).head
        (List.cons_ne_nil _ _)).2, 1 ≤ it.quantity ∧ it.quantity ≤ 3)
    ∧ 1 ≤ (((generateOrdersItems [⟨1, "Customer_1", "user1@email.com", 0, "London", 30, "Basic"⟩]
          [⟨1, "Books_Product_1", "Books", 10, 6, 0⟩] 1 ⟨fun _ => 0, 0⟩).1.getD []).head
        (List.cons_ne_nil _ _)).2.length
    ∧ (((generateOrdersItems [⟨1, "Customer_1", "user1@email.com", 0, "London", 30, "Basic"⟩]
          [⟨1, "Books_Product_1", "Books", 10, 6, 0⟩] 1 ⟨fun _ => 0, 0⟩).1.getD []).head
        (List.cons_ne_nil _ _)).2.length ≤ 5 :=
  c1_order_total_and_items
    [⟨1, "Customer_1", "user1@email.com", 0, "London", 30, "Basic"⟩]
    [⟨1, "Books_Product_1", "Books", 10, 6, 0⟩] 1 ⟨fun _ => 0, 0⟩
    ((generateOrdersItems [⟨1, "Customer_1", "user1@email.com", 0, "London", 30, "Basic"⟩]
      [⟨1, "Books_Product_1", "Books", 10, 6, 0⟩] 1 ⟨fun _ => 0, 0⟩).2)
    ((generateOrdersItems [⟨1, "Customer_1", "user1@email.com", 0, "London", 30, "Basic"⟩]
      [⟨1, "Books_Product_1", "Books", 10, 6, 0⟩] 1 ⟨fun _ => 0, 0⟩).1.getD [])
    (by decide) rfl _ (List.head_mem _)

/-- C2 counterexample: the claim "cost equals 0.6 × price rounded to two
decimals" fails on the stored price — on the stream drawing base price
`10.008`, the generated product has `price = 10.01` and `cost = 6.00`,
but `round2 (price * 0.6) = 6.01`.  (`generate_products` computes the
cost from the unrounded base price, not from the stored price.) -/
theorem c2_product_cost_counterexample :
    ∃ p ∈ (generateProducts 1 ⟨fun i => if i = 1 then 1 / 125 else 0, 0⟩).1,
      p.cost ≠ round2 (p.price * (3 / 5)) := by
  refine ⟨_, List.mem_cons_self _ _, ?_⟩
  simp only [generateProducts, generateProductsFrom, genProduct, choiceD, uniform, randint,
    qmod, toIndex, RandState.next, productCategories]
  norm_num [round2, round_eq]

/-- C2 (amended): for every generated product there is a sampled base
price `b ∈ [10, 500)` with `price = round2 b` and `cost = round2 (0.6 × b)`
(the cost comes from the unrounded base price); moreover `cost < price`
strictly, the price is positive, and the stock quantity is non-negative. -/
theorem c2_product_pricing (n : Nat) (s : RandState) :
    ∀ p ∈ (generateProducts n s).1,
      (∃ b : Rat, 10 ≤ b ∧ b < 500 ∧ p.price = round2 b ∧ p.cost = round2 (b * (3 / 5)))
      ∧ p.cost < p.price ∧ 0 < p.price ∧ 0 ≤ p.stock_quantity := by
  intro p hp
  obtain ⟨b, hb1, hb2, hprice, hcost, hstock⟩ := generateProductsFrom_spec n 1 s p hp
  have h1 := abs_round2_sub_le b
  have h2 := abs_round2_sub_le (b * (3 / 5))
  rw [abs_le] at h1 h2
  refine ⟨⟨b, hb1, hb2, hprice, hcost⟩, ?_, ?_, hstock⟩
  · rw [hprice, hcost]
    nlinarith [h1.1, h1.2, h2.1, h2.2]
  · rw [hprice]
    nlinarith [h1.1, h1.2]

/-- C2 witness: the amended claim instantiated on the head product of a
concrete run of the generator (constant-zero stream). -/
theorem c2_product_pricing_witness :
    (∃ b : Rat, 10 ≤ b ∧ b < 500
        ∧ ((generateProducts 1 ⟨fun _ => 0, 0⟩).1.head (List.cons_ne_nil _ _)).price = round2 b
        ∧ ((generateProducts 1 ⟨fun _ => 0, 0⟩).1.head (List.cons_ne_nil _ _)).cost =
            round2 (b * (3 / 5)))
      ∧ ((generateProducts 1 ⟨fun _ => 0, 0⟩).1.head (List.cons_ne_nil _ _)).cost <
          ((generateProducts 1 ⟨fun _ => 0, 0⟩).1.head (List.cons_ne_nil _ _)).price
      ∧ 0 < ((generateProducts 1 ⟨fun _ => 0, 0⟩).1.head (List.cons_ne_nil _ _)).price
      ∧ 0 ≤ ((generateProducts 1 ⟨fun _ => 0, 0⟩).1.head (List.cons_ne_nil _ _)).stock_quantity :=
  c2_product_pricing 1 ⟨fun _ => 0, 0⟩ _ (List.head_mem _)

/-- C3: Load is idempotent — for fixed transformed inputs, running the
load step twice yields a store (tables and indexes) identical to running
it once: each table is fully replaced and index creation is guarded by
if-not-exists. -/
theorem c3_load_idempotent {α β γ : Type} (cs : List α) (ps : List β) (os : List γ)
    (st : Store α β γ) :
    loadData cs ps os (loadData cs ps os st) = loadData cs ps os st := by
  unfold loadData
  simp only [Store.mk.injEq, true_and]
  exact foldl_createIndex_of_all_mem fun n hn => mem_foldl_createIndex_self _ hn

/-- C4: the monthly revenue query sums, per month, exactly the completed
orders: the total of the returned `revenue` values differs from the sum
of `total_amount` over completed orders only by the per-month rounding
(at most half a cent per returned row); Pending/Cancelled orders
contribute nothing (the result only depends on the completed orders);
and the rows are ordered chronologically (ascending month bucket). -/
theorem c4_monthly_revenue_totals (orders : List DbOrder) :
    |((monthlyRevenueAnalysis orders).map (·.revenue)).sum
        - ((completedOrders orders).map (·.total_amount)).sum|
      ≤ ((monthlyRevenueAnalysis orders).length : Rat) * (1 / 200)
    ∧ monthlyRevenueAnalysis orders = monthlyRevenueAnalysis (completedOrders orders)
    ∧ ((monthlyRevenueAnalysis orders).map (·.order_month)).Sorted (· ≤ ·) := by
  refine ⟨?_, ?_, ?_⟩
  · have hperm : List.Perm (monthlyMonths orders)
        (((completedOrders orders).map (·.order_month)).dedup) :=
      List.perm_insertionSort _ _
    have hnd : (monthlyMonths orders).Nodup := hperm.nodup_iff.mpr (List.nodup_dedup _)
    have hcov : ∀ o ∈ completedOrders orders, o.order_month ∈ monthlyMonths orders :=
      fun o ho => hperm.mem_iff.mpr (List.mem_dedup.mpr (List.mem_map_of_mem _ ho))
    have hsum : ((monthlyMonths orders).map fun m =>
          ((monthGroup (completedOrders orders) m).map (·.total_amount)).sum).sum
        = ((completedOrders orders).map (·.total_amount)).sum :=
      sum_groups (·.order_month) (·.total_amount) (monthlyMonths orders)
        (completedOrders orders) hnd hcov
    have hrev : (monthlyRevenueAnalysis orders).map (·.revenue)
        = ((monthlyMonths orders).map fun m =>
            ((monthGroup (completedOrders orders) m).map (·.total_amount)).sum).map round2 := by
      unfold monthlyRevenueAnalysis
      rw [List.map_map, List.map_map]
      rfl
    have hlen : (monthlyRevenueAnalysis orders).length
        = ((monthlyMonths orders).map fun m =>
            ((monthGroup (completedOrders orders) m).map (·.total_amount)).sum).length := by
      unfold monthlyRevenueAnalysis
      rw [List.length_map, List.length_map]
    rw [hrev, hlen, ← hsum]
    exact sum_round2_bound _
  · unfold monthlyRevenueAnalysis monthlyMonths
    rw [completedOrders_idem]
  · have hmap : (monthlyRevenueAnalysis orders).map (·.order_month) = monthlyMonths orders := by
      unfold monthlyRevenueAnalysis
      rw [List.map_map]
      exact (List.map_congr_left fun m _ => rfl).trans (List.map_id _)
    rw [hmap]
    exact List.sorted_insertionSort _ _

/-- C5: the geographic analysis returns one row per distinct customer
location (its location column is a permutation of the distinct
locations), each row reporting the location's distinct-customer count,
its completed-order join count, and the two-decimal rounding of its
completed-order revenue; a location with no completed orders still
appears and reports total revenue exactly 0; and the rows are ordered by
descending revenue. -/
theorem c5_geographic_locations (cs : List DbCustomer) (os : List DbOrder) :
    List.Perm ((geographicAnalysis cs os).map (·.location)) ((cs.map (·.location)).dedup)
    ∧ (∀ r ∈ geographicAnalysis cs os,
        r.customer_count = ((custsAt cs r.location).map (·.customer_id)).dedup.length
        ∧ r.total_orders = (joinPairs cs os r.location).length
        ∧ r.total_revenue =
            round2 (((joinPairs cs os r.location).map fun p => p.2.total_amount).sum))
    ∧ (∀ r ∈ geographicAnalysis cs os,
        (∀ c ∈ cs, c.location = r.location →
          ∀ o ∈ os, o.customer_id = c.customer_id → o.status ≠ "Completed") →
        r.total_revenue = 0)
    ∧ ((geographicAnalysis cs os).map (·.total_revenue)).Sorted (· ≥ ·) := by
  haveI htot : IsTotal GeoRow fun r1 r2 => r2.total_revenue ≤ r1.total_revenue :=
    ⟨fun a b => le_total b.total_revenue a.total_revenue⟩
  haveI htrans : IsTrans GeoRow fun r1 r2 => r2.total_revenue ≤ r1.total_revenue :=
    ⟨fun a b c h1 h2 => le_trans h2 h1⟩
  refine ⟨?_, ?_, ?_, ?_⟩
  · have h1 : List.Perm (geographicAnalysis cs os) ((geoLocations cs).map (geoRow cs os)) :=
      List.perm_insertionSort _ _
    have h2 := h1.map (·.location)
    have h3 : ((geoLocations cs).map (geoRow cs os)).map (·.location) = geoLocations cs := by
      rw [List.map_map]
      exact (List.map_congr_left fun l _ => rfl).trans (List.map_id _)
    rw [h3] at h2
    exact h2
  · intro r hr
    obtain ⟨loc, hloc, rfl⟩ :=
      List.mem_map.mp ((List.perm_insertionSort _ _).mem_iff.mp hr)
    exact ⟨rfl, rfl, rfl⟩
  · intro r hr hzero
    obtain ⟨loc, hloc, rfl⟩ :=
      List.mem_map.mp ((List.perm_insertionSort _ _).mem_iff.mp hr)
    have hj : joinPairs cs os loc = [] := by
      unfold joinPairs
      rw [List.flatMap_eq_nil_iff]
      intro c hc
      rw [List.map_eq_nil_iff, List.filter_eq_nil_iff]
      intro o ho hpo
      obtain ⟨hcl, hcl2⟩ := List.mem_filter.mp hc
      simp only [Bool.and_eq_true, beq_iff_eq] at hpo hcl2
      exact hzero c hcl hcl2 o ho hpo.1 hpo.2
    show (geoRow cs os loc).total_revenue = 0
    unfold geoRow
    dsimp only
    rw [hj]
    simp [round2]
  · have hs := List.sorted_insertionSort (fun r1 r2 => r2.total_revenue ≤ r1.total_revenue)
      ((geoLocations cs).map (geoRow cs os))
    exact List.pairwise_map.mpr hs

/-- C5 witness: on a concrete store with one London customer and no
orders, the London row still appears and reports total revenue exactly
0. -/
theorem c5_geographic_locations_witness :
    ((geographicAnalysis [⟨1, "London", "Basic"⟩] []).head
        (List.cons_ne_nil _ _)).total_revenue = 0 :=
  (c5_geographic_locations [⟨1, "London", "Basic"⟩] []).2.2.1 _ (List.head_mem _)
    fun _ _ _ o ho => absurd ho (List.not_mem_nil o)

/-- C6: reporting-layer query failures are isolated — `run_query` turns an
engine failure into an absent (`none`) result and a success into a present
one; `run_full_analysis` runs the five fixed queries through independent
`run_query` calls, so the result at position `j` depends only on the
engine's answer to query `j`, and one query's failure leaves the other
four results intact. -/
theorem c6_query_isolation :
    (∀ (τ : Type) (exec : String → Except String τ) (q e : String),
        exec q = Except.error e → runQuery exec q = none)
    ∧ (∀ (τ : Type) (exec : String → Except String τ) (q : String) (t : τ),
        exec q = Except.ok t → runQuery exec q = some t)
    ∧ (∀ (τ : Type) (exec : String → Except String τ),
        (runFullAnalysis exec).map Prod.fst =
          ["Database Overview", "Monthly Revenue", "Customer Segments",
           "Geographic Performance", "Top Revenue Months"])
    ∧ (∀ (τ : Type) (exec exec' : String → Except String τ) (j : Nat)
        (hj : j < analysisQueries.length),
        exec (analysisQueries[j]).2 = exec' (analysisQueries[j]).2 →
        (runFullAnalysis exec)[j]? = (runFullAnalysis exec')[j]?) := by
  refine ⟨fun τ exec q e h => ?_, fun τ exec q t h => ?_, fun τ exec => rfl,
    fun τ exec exec' j hj h => ?_⟩
  · unfold runQuery
    rw [h]
  · unfold runQuery
    rw [h]
  · unfold runFullAnalysis
    rw [List.getElem?_map, List.getElem?_map, List.getElem?_eq_getElem hj]
    have : runQuery exec (analysisQueries[j]).2 = runQuery exec' (analysisQueries[j]).2 := by
      unfold runQuery
      rw [h]
    simp [this]

/-- C6 witness: a concrete failing engine yields an absent result. -/
theorem c6_query_isolation_witness :
    runQuery (τ := Nat) (fun _ => Except.error "no such table") "basic_stats" = none :=
  c6_query_isolation.1 Nat _ "basic_stats" "no such table" rfl

/-- C7: extraction is all-or-nothing and aborts the pipeline — if any of
the three source files is missing or malformed, `extract_data` raises, the
pipeline run propagates the same error, and the transform and load stages
are never entered. -/
theorem c7_extract_all_or_nothing (now : Int) (fs : SourceFiles)
    (st : Store TransCustomer TransProduct TransOrder)
    (h : fileBad fs.customersFile ∨ fileBad fs.ordersFile ∨ fileBad fs.productsFile) :
    ∃ e, extractData fs = Except.error e
      ∧ (runPipeline now fs st).1 = Except.error e
      ∧ Step.transform ∉ (runPipeline now fs st).2
      ∧ Step.load ∉ (runPipeline now fs st).2 := by
  obtain ⟨e, he⟩ : ∃ e, extractData fs = Except.error e := by
    obtain ⟨cf, pf, odf⟩ := fs
    simp only [fileBad] at h
    rcases cf with _ | (_ | cst) <;> rcases odf with _ | (_ | ost) <;>
      rcases pf with _ | (_ | pst) <;>
      first
        | exact ⟨_, rfl⟩
        | simp_all
  refine ⟨e, he, ?_, ?_, ?_⟩ <;> rw [runPipeline_extract_error he] <;> simp

/-- C7 witness: with the products file deleted (and the other two intact),
extraction fails and the transform/load stages never run. -/
theorem c7_extract_all_or_nothing_witness :
    ∃ e,
      extractData ⟨some (some []), none, some (some [])⟩ = Except.error e
      ∧ (runPipeline 0 ⟨some (some []), none, some (some [])⟩ ⟨[], [], [], []⟩).1 =
          Except.error e
      ∧ Step.transform ∉ (runPipeline 0 ⟨some (some []), none, some (some [])⟩ ⟨[], [], [], []⟩).2
      ∧ Step.load ∉ (runPipeline 0 ⟨some (some []), none, some (some [])⟩ ⟨[], [], [], []⟩).2 :=
  c7_extract_all_or_nothing 0 ⟨some (some []), none, some (some [])⟩ ⟨[], [], [], []⟩
    (Or.inr (Or.inr (Or.inl rfl)))

/-- C8: data-quality validation is pure and non-fatal — it returns the
three tables unchanged, its warnings are empty exactly when the three
null-cell counts and the customer duplicate-row count are all zero, and
the transform step succeeds exactly when every date cell parses, so the
quality counts never make it fail. -/
theorem c8_validation_pure_nonfatal (tcs : List TransCustomer) (tps : List TransProduct)
    (tos : List TransOrder) :
    (validateData tcs tps tos).1 = (tcs, tps, tos)
    ∧ (validateWarnings tcs tps tos = [] ↔
        customersMissing tcs = 0 ∧ productsMissing tps = 0
          ∧ ordersMissing tos = 0 ∧ customerDupes tcs = 0)
    ∧ (∀ (now : Int) (cs : List RawCustomer) (ps : List RawProduct) (os : List RawOrder),
        (∃ r, transformData now cs ps os = Except.ok r) ↔
          (∀ c ∈ cs, ∃ d, toDatetime c.signup_date = Except.ok d)
          ∧ (∀ o ∈ os, ∃ d, toDatetime o.order_date = Except.ok d)) := by
  refine ⟨rfl, ?_, ?_⟩
  · unfold validateWarnings
    rcases Nat.eq_zero_or_pos (customersMissing tcs) with h1 | h1 <;>
      rcases Nat.eq_zero_or_pos (productsMissing tps) with h2 | h2 <;>
      rcases Nat.eq_zero_or_pos (ordersMissing tos) with h3 | h3 <;>
      rcases Nat.eq_zero_or_pos (customerDupes tcs) with h4 | h4 <;>
      simp_all <;> omega
  · intro now cs ps os
    constructor
    · rintro ⟨r, hr⟩
      unfold transformData at hr
      rcases hc : mapExcept (transformCustomer now) cs with e | v <;> rw [hc] at hr
      · cases hr
      · rcases ho : mapExcept transformOrder os with e | w <;> rw [ho] at hr
        · cases hr
        · exact ⟨fun c hcm => transformCustomer_ok_iff.mp
              ((mapExcept_ok_iff (transformCustomer now) cs).mp ⟨v, hc⟩ c hcm),
            fun o hom => transformOrder_ok_iff.mp
              ((mapExcept_ok_iff transformOrder os).mp ⟨w, ho⟩ o hom)⟩
    · rintro ⟨hcs, hos⟩
      obtain ⟨v, hv⟩ := (mapExcept_ok_iff (transformCustomer now) cs).mpr
        fun c hcm => transformCustomer_ok_iff.mpr (hcs c hcm)
      obtain ⟨w, hw⟩ := (mapExcept_ok_iff transformOrder os).mpr
        fun o hom => transformOrder_ok_iff.mpr (hos o hom)
      exact ⟨_, by unfold transformData; rw [hv, hw]⟩

/-- C8 witness: on concrete empty tables the validation step returns them
unchanged. -/
theorem c8_validation_pure_nonfatal_witness :
    (validateData [] [] []).1 = ([], [], []) :=
  (c8_validation_pure_nonfatal [] [] []).1

/-- C9: every order produced by order generation from a non-empty
customers table references an existing customer — its customer identifier
is an element of the customers table's identifier column. -/
theorem c9_orders_reference_customers (customers : List Customer) (products : List Product)
    (n : Nat) (s s' : RandState) (orders : List Order)
    (hc : customers ≠ [])
    (h : generateOrders customers products n s = (some orders, s')) :
    ∀ o ∈ orders, o.customer_id ∈ customers.map (·.customer_id) := by
  unfold generateOrders at h
  split at h
  · rename_i prs s2 heq
    simp only [Prod.mk.injEq, Option.some.injEq] at h
    obtain ⟨horders, rfl⟩ := h
    subst horders
    intro o ho
    obtain ⟨op, hop, rfl⟩ := List.mem_map.mp ho
    exact (generateOrdersItemsFrom_spec n 1 s s2 prs heq op hop).2.2.2.2.2
  · exact absurd (congrArg Prod.fst h) (by simp)

/-- C9 witness: the first order of a concrete run references the only
customer of the table. -/
theorem c9_orders_reference_customers_witness :
    (((generateOrders [⟨1, "Customer_1", "user1@email.com", 0, "London", 30, "Basic"⟩]
          [⟨1, "Books_Product_1", "Books", 10, 6, 0⟩] 1 ⟨fun _ => 0, 0⟩).1.getD []).head
        (List.cons_ne_nil _ _)).customer_id ∈
      ([⟨1, "Customer_1", "user1@email.com", 0, "London", 30, "Basic"⟩] :
        List Customer).map (·.customer_id) :=
  c9_orders_reference_customers
    [⟨1, "Customer_1", "user1@email.com", 0, "London", 30, "Basic"⟩]
    [⟨1, "Books_Product_1", "Books", 10, 6, 0⟩] 1 ⟨fun _ => 0, 0⟩
    ((generateOrders [⟨1, "Customer_1", "user1@email.com", 0, "London", 30, "Basic"⟩]
      [⟨1, "Books_Product_1", "Books", 10, 6, 0⟩] 1 ⟨fun _ => 0, 0⟩).2)
    ((generateOrders [⟨1, "Customer_1", "user1@email.com", 0, "London", 30, "Basic"⟩]
      [⟨1, "Books_Product_1", "Books", 10, 6, 0⟩] 1 ⟨fun _ => 0, 0⟩).1.getD [])
    (List.cons_ne_nil _ _) rfl _ (List.head_mem _)

/-- C10: order generation samples line-item products without replacement,
so with at least 5 (distinct-id) products every draw succeeds for every
stream, while with fewer than 5 products some stream (one drawing a
5-item order) makes the product-selection step fail instead of producing
an order. -/
theorem c10_sample_without_replacement_precondition
    (customers : List Customer) (products : List Product) (hc : customers ≠ []) :
    (5 ≤ products.length →
      ∀ (n : Nat) (s : RandState),
        ∃ orders s', generateOrders customers products n s = (some orders, s'))
    ∧ (products.length < 5 →
      ∃ s : RandState, (generateOrders customers products 1 s).1 = none) := by
  constructor
  · intro hp n s
    obtain ⟨prs, s', h⟩ := generateOrdersItemsFrom_isSome hc hp n 1 s
    refine ⟨prs.map Prod.fst, s', ?_⟩
    unfold generateOrders
    rw [show generateOrdersItems customers products n s = (some prs, s') from h]
  · intro hp
    obtain ⟨cid, hcid⟩ := choice_isSome
      (show customers.map (·.customer_id) ≠ [] by simpa using hc)
      (⟨fun _ => 4, 0⟩ : RandState)
    have hgen : ∃ st, genOrderItems customers products 1 (⟨fun _ => 4, 0⟩ : RandState) =
        (none, st) := by
      unfold genOrderItems
      rcases h1 : choice (customers.map (·.customer_id)) (⟨fun _ => 4, 0⟩ : RandState)
        with ⟨cid?, s1⟩
      rw [h1] at hcid
      have hc1 : cid? = some cid := hcid
      subst hc1
      have hs1 : s1 = (⟨fun _ => 4, 1⟩ : RandState) := (congrArg Prod.snd h1).symm
      subst hs1
      have hnum : (choiceD [1, 2, 3, 4, 5] 1
          (randint 0 365 (⟨fun _ => 4, 1⟩ : RandState)).2).1 = 5 := rfl
      have hsam := sampleNoReplace_none_iff
        ((choiceD [1, 2, 3, 4, 5] 1 (randint 0 365 (⟨fun _ => 4, 1⟩ : RandState)).2).1)
        (products.map (·.product_id))
        ((choiceD [1, 2, 3, 4, 5] 1 (randint 0 365 (⟨fun _ => 4, 1⟩ : RandState)).2).2)
      rcases h2 : sampleNoReplace (products.map (·.product_id))
          ((choiceD [1, 2, 3, 4, 5] 1 (randint 0 365 (⟨fun _ => 4, 1⟩ : RandState)).2).1)
          ((choiceD [1, 2, 3, 4, 5] 1 (randint 0 365 (⟨fun _ => 4, 1⟩ : RandState)).2).2)
        with ⟨sel?, s4⟩
      rw [h2] at hsam
      have hnone : sel? = none := by
        apply hsam.mpr
        rw [hnum]
        simpa using hp
      subst hnone
      simp only [h1, h2]
      exact ⟨s4, rfl⟩
    obtain ⟨st, hgen⟩ := hgen
    refine ⟨⟨fun _ => 4, 0⟩, ?_⟩
    unfold generateOrders generateOrdersItems generateOrdersItemsFrom
    simp only [hgen]

/-- C10 witness: with five products and a non-empty customers table a
concrete run succeeds. -/
theorem c10_sample_without_replacement_precondition_witness :
    ∃ orders s',
      generateOrders [⟨1, "Customer_1", "user1@email.com", 0, "London", 30, "Basic"⟩]
        [⟨1, "A", "Books", 10, 6, 0⟩, ⟨2, "B", "Books", 20, 12, 0⟩,
         ⟨3, "C", "Books", 30, 18, 0⟩, ⟨4, "D", "Books", 40, 24, 0⟩,
         ⟨5, "E", "Books", 50, 30, 0⟩] 1 ⟨fun _ => 0, 0⟩ = (some orders, s') :=
  (c10_sample_without_replacement_precondition
    [⟨1, "Customer_1", "user1@email.com", 0, "London", 30, "Basic"⟩]
    [⟨1, "A", "Books", 10, 6, 0⟩, ⟨2, "B", "Books", 20, 12, 0⟩,
     ⟨3, "C", "Books", 30, 18, 0⟩, ⟨4, "D", "Books", 40, 24, 0⟩,
     ⟨5, "E", "Books", 50, 30, 0⟩]
    (List.cons_ne_nil _ _)).1 (by simp) 1 ⟨fun _ => 0, 0⟩

end ECommerce
